import Mathlib

/-!
Shallow embedding of `framework_crates/bones_framework/src/networking.rs`:
the GGRS-based rollback session runner (`GgrsSessionRunner`), its
construction (`GgrsSessionRunner::new`) and its driving loop
(`GgrsSessionRunner::step` from the `SessionRunner` impl).

Modelling conventions:
* `f32` / `f64` arithmetic is idealised as exact rational arithmetic (`ℚ`);
  `instant::Instant` timestamps and `Duration` values are rationals
  (seconds).
* `I` is the dense input type (`InputTypes::Dense`), `S` is the part of the
  bones `World` that the runner never inspects directly (everything except
  the `Time` resource and the player-controls resource).
* The pieces the runner merely drives are parameters: the simulation step
  (`stages.run(world)`) is an arbitrary function on worlds, and the results
  of `self.session.advance_frame()` are an oracle indexed by the number of
  `advance_frame` calls made so far during the `step` call.
* The `while accumulator >= step` loop is executed with an explicit
  iteration budget equal to `⌊accumulator / step⌋₊`, which is exactly the
  number of iterations the source loop performs when the tick duration is
  positive (for a nonpositive tick duration the source guard
  `accumulator >= 1.0 / network_fps` can never be reached with a positive
  fps, and the model exits the loop).
-/

namespace Bones

/-- `NetworkInputStatus` from the source: tag on a received input. -/
inductive NetworkInputStatus where
  /-- The input of this player for this frame is an actual received input. -/
  | confirmed
  /-- The input of this player for this frame is predicted. -/
  | predicted
  /-- The player has disconnected at or prior to this frame. -/
  | disconnected
deriving DecidableEq

/-- `NETWORK_FRAME_RATE_FACTOR: f32 = 0.9`, idealised as the exact rational. -/
def NETWORK_FRAME_RATE_FACTOR : ℚ := 9 / 10

/-- `NETWORK_MAX_PREDICTION_WINDOW: usize = 10`. -/
def NETWORK_MAX_PREDICTION_WINDOW : ℕ := 10

/-- `NETWORK_LOCAL_INPUT_DELAY: usize = 1`. -/
def NETWORK_LOCAL_INPUT_DELAY : ℕ := 1

/-- `MAX_PLAYERS: usize = 4`. -/
def MAX_PLAYERS : ℕ := 4

/-- `usize::MAX` on a 64-bit target, as a rational (used by the clamp in
`GgrsSessionRunner::new`). -/
def USIZE_MAX : ℚ := 2 ^ 64 - 1

/-- The `network_fps` computation in `GgrsSessionRunner::new`:
`(simulation_fps * NETWORK_FRAME_RATE_FACTOR) as f64` followed by
`.max(usize::MIN as f64).min(usize::MAX as f64).round() as usize`.
`usize::MIN` is `0`; `f64::round` rounds half away from zero, which on the
clamped (nonnegative) range agrees with Mathlib's `round` (half up). -/
def networkFpsOf (simulationFps : ℚ) : ℕ :=
  (round (min (max (simulationFps * NETWORK_FRAME_RATE_FACTOR) 0) USIZE_MAX)).toNat

/-- The fixed tick duration computed at the top of `step`:
`let step: f64 = 1.0 / self.network_fps`. -/
def stepDuration (networkFps : ℚ) : ℚ := 1 / networkFps

/-- The `local_player_idx` computation in `GgrsSessionRunner::new`: the loop
`for i in 0..info.player_count` records `Some(i)` for every `i` with
`info.player_is_local[i]`, so the last local index below `player_count`
wins; `None` means no local player. -/
def computeLocalPlayerIdx (playerIsLocal : List Bool) (playerCount : ℕ) : Option ℕ :=
  (List.range playerCount).foldl
    (fun acc i => if playerIsLocal.getD i false then some i else acc) none

/-- The mutable fields of `GgrsSessionRunner` that persist across `step`
calls (the GGRS session itself is modelled separately, as the
`advance_frame` oracle and the event list fed to `step`). -/
structure GgrsSessionRunner (I : Type) where
  /-- `last_player_input`: the last local dense input detected. -/
  lastPlayerInput : I
  /-- `player_is_local`. -/
  playerIsLocal : List Bool
  /-- `local_player_idx`. -/
  localPlayerIdx : ℕ
  /-- `accumulator`: the frame-time accumulator. -/
  accumulator : ℚ
  /-- `last_run`: timestamp of the previous `step` call. -/
  lastRun : Option ℚ
  /-- `network_fps` (stored `as f64`; here the rational image of the
  integer rate). -/
  networkFps : ℚ
deriving DecidableEq

/-- `GgrsSessionRunner::new`. The `expect` on a missing local player is a
panic, modelled as `Except.error`; building the GGRS session itself
(builder and socket) is outside the runner state modelled here. -/
def GgrsSessionRunner.new {I : Type} [Inhabited I] (simulationFps : ℚ)
    (playerIsLocal : List Bool) (playerCount : ℕ) :
    Except String (GgrsSessionRunner I) :=
  let networkFps := networkFpsOf simulationFps
  match computeLocalPlayerIdx playerIsLocal playerCount with
  | some idx =>
    Except.ok
      { lastPlayerInput := default
        playerIsLocal := playerIsLocal
        localPlayerIdx := idx
        accumulator := 0
        lastRun := none
        networkFps := (networkFps : ℚ) }
  | none => Except.error "Networking player_is_local array has no local players."

/-- The bones `World` as seen by the session runner: the `Time` resource
clock, the player-controls resource (for each player the `(input, status)`
pair last applied by `network_update`), and the rest of the world state,
which the runner never touches directly. -/
structure World (I : Type) (S : Type) where
  /-- The `Time` resource (advanced by `advance_exact`). -/
  time : ℚ
  /-- The input-facing per-player controls resource. -/
  controls : List (I × NetworkInputStatus)
  /-- Everything else in the world, opaque to the runner. -/
  sim : S
deriving DecidableEq

instance {I S : Type} [Inhabited S] : Inhabited (World I S) := ⟨0, [], default⟩

/-- `ggrs::GGRSRequest`. The `cell` of `SaveGameState` / `LoadGameState` is
the per-frame snapshot slot; it is modelled by the frame-keyed store in
`StepState.cells`. -/
inductive GGRSRequest (I S : Type) where
  | saveGameState (frame : ℤ)
  | loadGameState (frame : ℤ)
  | advanceFrame (inputs : List (I × NetworkInputStatus))
deriving DecidableEq

/-- The `ggrs::GGRSError` cases distinguished by the `Err` arm of the
`advance_frame` match; every error other than the two named ones hits the
catch-all `e => error!(...)` arm. -/
inductive GGRSError where
  | notSynchronized
  | predictionThreshold
  | otherError
deriving DecidableEq

/-- `ggrs::GGRSEvent` as drained by `self.session.events()`. -/
inductive GGRSEvent where
  | synchronizing (addr total count : ℕ)
  | synchronized (addr : ℕ)
  | disconnected (addr : ℕ)
  | networkInterrupted (addr disconnectTimeout : ℕ)
  | networkResumed (addr : ℕ)
  | waitRecommendation (skipFrames : ℕ)
  | desyncDetected (frame : ℤ) (localChecksum remoteChecksum : ℕ) (addr : ℕ)
deriving DecidableEq

/-- One `tracing` log statement issued by `step`, with the data it
captures. -/
inductive LogEntry where
  /-- `info!` for `Synchronizing`. -/
  | syncing (player total count : ℕ)
  /-- `info!` for `Synchronized`. -/
  | syncedClient (player : ℕ)
  /-- `info!` for `NetworkInterrupted`. -/
  | interrupted (player : ℕ)
  /-- `info!` for `NetworkResumed`. -/
  | resumed (player : ℕ)
  /-- `info!` for `WaitRecommendation`. -/
  | skippingFrames (skipCount : ℕ)
  /-- `error!` for `DesyncDetected`. -/
  | desync (frame : ℤ) (localChecksum remoteChecksum : ℕ) (player : ℕ)
  /-- `warn!` when the local player has no control source. -/
  | noControlSource (playerIdx : ℕ)
deriving DecidableEq

/-- The log statement (if any) produced by one arm of the event match in
`step`. The `Disconnected { .. } => {}` arm is an empty body (its former
error return is commented out), so it produces nothing. -/
def eventLog : GGRSEvent → Option LogEntry
  | .synchronizing a t c => some (.syncing a t c)
  | .synchronized a => some (.syncedClient a)
  | .disconnected _ => none
  | .networkInterrupted a _ => some (.interrupted a)
  | .networkResumed a => some (.resumed a)
  | .waitRecommendation k => some (.skippingFrames k)
  | .desyncDetected f lc rc a => some (.desync f lc rc a)

/-- The effect of one event on the local `skip_frames` variable: only
`WaitRecommendation` assigns it (`skip_frames = skip_count`). -/
def eventSkip (skip : ℕ) : GGRSEvent → ℕ
  | .waitRecommendation k => k
  | _ => skip

/-- The `for event in self.session.events()` loop: returns the final
`skip_frames` value (initialised to `0` at the top of `step`) and the log
entries in emission order. -/
def drainEvents (events : List GGRSEvent) : ℕ × List LogEntry :=
  events.foldl (fun acc e => (eventSkip acc.1 e, acc.2 ++ (eventLog e).toList)) (0, [])

/-- Lookup in the frame-keyed snapshot store (most recent save for a frame
first, mirroring that `cell.save` replaces the cell's previous content). -/
def lookupCell {I S : Type} (frame : ℤ) : List (ℤ × World I S) → Option (World I S)
  | [] => none
  | (g, w) :: rest => if g = frame then some w else lookupCell frame rest

/-- The `network_inputs.into_iter().enumerate()` loop of the `AdvanceFrame`
handler: `player_inputs.network_update(player_idx, &input, status)` stores
player `player_idx`'s `(input, status)` pair in the input-facing controls
resource, starting from index `start`. -/
def applyNetworkInputsFrom {I : Type} (controls : List (I × NetworkInputStatus)) :
    List (I × NetworkInputStatus) → ℕ → List (I × NetworkInputStatus)
  | [], _ => controls
  | x :: xs, i => applyNetworkInputsFrom (controls.set i x) xs (i + 1)

/-- Apply every participant's `(input, status)` pair, in player order. -/
def applyNetworkInputs {I : Type}
    (controls inputs : List (I × NetworkInputStatus)) : List (I × NetworkInputStatus) :=
  applyNetworkInputsFrom controls inputs 0

/-- The world mutations of the `AdvanceFrame` arm that precede
`stages.run(world)`: advance the `Time` resource by exactly one fixed tick
(`advance_exact(Duration::from_secs_f64(step))`) and apply every
participant's input/status into the controls resource. -/
def applyTick {I S : Type} (stepDur : ℚ) (w : World I S)
    (inputs : List (I × NetworkInputStatus)) : World I S :=
  { w with
    time := w.time + stepDur
    controls := applyNetworkInputs w.controls inputs }

/-- The state mutated while processing GGRS requests during one or more
`step` calls: the world, the snapshot cells, and two counters recording
how many times `input_collector.advance_frame()` was called and how many
times `stages.run(world)` was executed (the counters instrument the two
calls so that "exactly once per `AdvanceFrame` request" is observable). -/
structure StepState (I S : Type) where
  world : World I S
  cells : List (ℤ × World I S)
  collectorFrames : ℕ
  stagesRuns : ℕ
deriving DecidableEq

/-- The `match request` body of the `Ok(requests)` arm:
* `SaveGameState { cell, frame }` → `cell.save(frame, Some(world.clone()), None)`;
* `LoadGameState { cell, .. }` → `*world = cell.load().unwrap_or_default()`;
* `AdvanceFrame { inputs }` → `input_collector.advance_frame()`, advance the
  `Time` resource by one tick, apply the network inputs, `stages.run(world)`. -/
def processRequest {I S : Type} [Inhabited S] (stepDur : ℚ)
    (stepFn : World I S → World I S) (st : StepState I S) :
    GGRSRequest I S → StepState I S
  | .saveGameState frame => { st with cells := (frame, st.world) :: st.cells }
  | .loadGameState frame =>
    { st with world := (lookupCell frame st.cells).getD default }
  | .advanceFrame inputs =>
    { st with
      world := stepFn (applyTick stepDur st.world inputs)
      collectorFrames := st.collectorFrames + 1
      stagesRuns := st.stagesRuns + 1 }

/-- `for request in requests { ... }`: apply the requests in order. -/
def processRequests {I S : Type} [Inhabited S] (stepDur : ℚ)
    (stepFn : World I S → World I S) (st : StepState I S)
    (rs : List (GGRSRequest I S)) : StepState I S :=
  rs.foldl (processRequest stepDur stepFn) st

/-- What one iteration of the `while accumulator >= step` loop did after
submitting the local input. -/
inductive TickOutcome (I S : Type) where
  /-- `skip_frames > 0`: decrement and `continue` without advancing. -/
  | skipped
  /-- `advance_frame()` returned `Ok(requests)`, which were processed. -/
  | advanced (requests : List (GGRSRequest I S))
  /-- `advance_frame()` returned `Err(e)`: logged, tick skipped. -/
  | errored (e : GGRSError)
deriving DecidableEq

/-- The observable record of one loop iteration: the
`add_local_input(local_player_idx, last_player_input)` submission happens
unconditionally, then one of the three outcomes. -/
structure TickRecord (I S : Type) where
  submittedPlayer : ℕ
  submittedInput : I
  outcome : TickOutcome I S
deriving DecidableEq

/-- Result of running the accumulator loop. -/
structure TickLoopResult (I S : Type) where
  trace : List (TickRecord I S)
  accumulator : ℚ
  skipFrames : ℕ
  state : StepState I S
deriving DecidableEq

/-- The `loop { if self.accumulator >= step { ... } else { break } }` body,
with an explicit iteration budget `fuel`. Each iteration subtracts one tick
from the accumulator, submits the local input, then either consumes one
pending skip, or calls `advance_frame` (the oracle `adv`, indexed by the
number of `advance_frame` calls made so far) and processes its requests or
logs its error. -/
def tickLoop {I S : Type} [Inhabited S] (stepDur : ℚ)
    (adv : ℕ → Except GGRSError (List (GGRSRequest I S)))
    (stepFn : World I S → World I S) (localIdx : ℕ) (input : I) :
    ℕ → ℚ → ℕ → ℕ → StepState I S → TickLoopResult I S
  | 0, acc, skip, _, st => ⟨[], acc, skip, st⟩
  | fuel + 1, acc, skip, nAdv, st =>
    if 0 < stepDur ∧ stepDur ≤ acc then
      if 0 < skip then
        let r := tickLoop stepDur adv stepFn localIdx input fuel
          (acc - stepDur) (skip - 1) nAdv st
        { r with trace := ⟨localIdx, input, .skipped⟩ :: r.trace }
      else
        match adv nAdv with
        | .ok reqs =>
          let r := tickLoop stepDur adv stepFn localIdx input fuel
            (acc - stepDur) skip (nAdv + 1) (processRequests stepDur stepFn st reqs)
          { r with trace := ⟨localIdx, input, .advanced reqs⟩ :: r.trace }
        | .error e =>
          let r := tickLoop stepDur adv stepFn localIdx input fuel
            (acc - stepDur) skip (nAdv + 1) st
          { r with trace := ⟨localIdx, input, .errored e⟩ :: r.trace }
    else ⟨[], acc, skip, st⟩

/-- The accumulator loop with the exact iteration budget
`⌊accumulator / step⌋₊` (the number of iterations the source loop performs
for a positive tick duration). -/
def runTicks {I S : Type} [Inhabited S] (stepDur : ℚ)
    (adv : ℕ → Except GGRSError (List (GGRSRequest I S)))
    (stepFn : World I S → World I S) (localIdx : ℕ) (input : I)
    (acc : ℚ) (skip : ℕ) (st : StepState I S) : TickLoopResult I S :=
  tickLoop stepDur adv stepFn localIdx input (⌊acc / stepDur⌋₊) acc skip 0 st

/-- Everything `step` produced: the updated runner, the mutated state, the
per-tick trace, the log entries, and the final value of the local
`skip_frames` variable. -/
structure StepOutcome (I S : Type) where
  runner : GgrsSessionRunner I
  state : StepState I S
  trace : List (TickRecord I S)
  logs : List LogEntry
  finalSkipFrames : ℕ
deriving DecidableEq

/-- `GgrsSessionRunner::step(frame_start, world, stages)`.
`localInput` is the dense input captured once per call from the input
collector (`none` models a missing control source for the local player,
which warns and leaves `last_player_input` unchanged); `events` is what
`self.session.events()` yields this call; `adv` is the `advance_frame`
oracle; `stepFn` is `stages.run`. -/
def runnerStep {I S : Type} [Inhabited S] (r : GgrsSessionRunner I)
    (frameStart : ℚ) (localInput : Option I) (events : List GGRSEvent)
    (adv : ℕ → Except GGRSError (List (GGRSRequest I S)))
    (stepFn : World I S → World I S) (st : StepState I S) : StepOutcome I S :=
  let stepDur := stepDuration r.networkFps
  let lastRun := r.lastRun.getD frameStart
  let delta := frameStart - lastRun
  let acc := r.accumulator + delta
  let input := localInput.getD r.lastPlayerInput
  let inputLogs :=
    if localInput.isSome then ([] : List LogEntry)
    else [.noControlSource r.localPlayerIdx]
  let drained := drainEvents events
  let res := runTicks stepDur adv stepFn r.localPlayerIdx input acc drained.1 st
  { runner :=
      { r with
        lastPlayerInput := input
        accumulator := res.accumulator
        lastRun := some frameStart }
    state := res.state
    trace := res.trace
    logs := inputLogs ++ drained.2
    finalSkipFrames := res.skipFrames }

/-- Modelled from the spec: a state-transition request emitted by the Peer
Session (spec §4.2). Unlike the runner-side `GGRSRequest`, the spec's
description attaches the frame ordinal to each replayed / newly advanced
frame, so `advance` carries it here. -/
inductive SessionRequest (I : Type) where
  | save (frame : ℤ)
  | load (frame : ℤ)
  | advance (frame : ℕ) (inputs : List (I × NetworkInputStatus))
deriving DecidableEq

/-- Modelled from the spec: whether every participant's true input for
frame `f` is known (`known p f` is the received-input history exposed by
the transport at the time of the `advance` call). -/
def frameKnown {I : Type} (known : ℕ → ℕ → Option I) (numPlayers f : ℕ) : Bool :=
  (List.range numPlayers).all fun p => (known p f).isSome

/-- Modelled from the spec: the most recent known input of participant `p`
strictly before frame `f` ("commonly, the most recent known input for that
participant"). -/
def lastKnownBefore {I : Type} (known : ℕ → ℕ → Option I) (p : ℕ) : ℕ → Option I
  | 0 => none
  | g + 1 => ((known p g).orElse fun _ => lastKnownBefore known p g)

/-- Modelled from the spec: the per-participant `(input, status)` list for
frame `f`: known inputs are `Confirmed`, unknown ones get the best
prediction tagged `Predicted` (default input if nothing is known yet). -/
def inputsFor {I : Type} [Inhabited I] (known : ℕ → ℕ → Option I)
    (numPlayers f : ℕ) : List (I × NetworkInputStatus) :=
  (List.range numPlayers).map fun p =>
    match known p f with
    | some i => (i, NetworkInputStatus.confirmed)
    | none => ((lastKnownBefore known p f).getD default, NetworkInputStatus.predicted)

/-- Modelled from the spec: whether executed frame `f` used, for some
participant, an input that differs from that participant's now-known true
input (a detected misprediction). `used` records the inputs each executed
frame was advanced with. -/
def mispredictedAt {I : Type} [DecidableEq I] [Inhabited I]
    (known : ℕ → ℕ → Option I) (numPlayers : ℕ) (used : List (List I))
    (f : ℕ) : Bool :=
  (List.range numPlayers).any fun p =>
    match known p f with
    | some i => decide (((used.getD f []).getD p default) ≠ i)
    | none => false

/-- Modelled from the spec: the largest `L ≤ bound` such that every frame
below `L` has all participants' true inputs known (the confirmed-frame
boundary). -/
def confirmedUpTo {I : Type} (known : ℕ → ℕ → Option I) (numPlayers : ℕ) : ℕ → ℕ
  | 0 => 0
  | n + 1 =>
    if (List.range (n + 1)).all (fun f => frameKnown known numPlayers f) then n + 1
    else confirmedUpTo known numPlayers n

/-- Modelled from the spec: the Peer Session (rollback engine) state. The
real engine is the external `ggrs::P2PSession`, which is not part of the
repository sources, so it is reconstructed from spec §4.2: `currentFrame`
is the next unresolved frame (frames below it have been executed),
`used` are the inputs each executed frame was advanced with. -/
structure PeerSession (I : Type) where
  numPlayers : ℕ
  maxPredictionWindow : ℕ
  currentFrame : ℕ
  used : List (List I)
deriving DecidableEq

/-- Modelled from the spec: one `advance` call of the Peer Session
(spec §4.2). If advancing the next unresolved frame would require
predicting while already at the prediction-window bound, emit
`PredictionThreshold` and do not advance. Otherwise, if some executed
frame is now known to have been mispredicted, invalidate from the first
such frame `F` forward: emit a `LoadGameState` for the last known-good
snapshot (`F - 1`), replay each subsequent frame via `AdvanceFrame` with
the now-corrected inputs, then save and advance the next new frame.
Otherwise save and advance the next new frame directly. -/
def PeerSession.advance {I : Type} [DecidableEq I] [Inhabited I]
    (s : PeerSession I) (known : ℕ → ℕ → Option I) :
    Except GGRSError (List (SessionRequest I) × PeerSession I) :=
  let confirmed := confirmedUpTo known s.numPlayers s.currentFrame
  if ¬ frameKnown known s.numPlayers s.currentFrame = true ∧
      s.maxPredictionWindow ≤ s.currentFrame - confirmed then
    Except.error GGRSError.predictionThreshold
  else
    match (List.range s.currentFrame).find?
        (fun f => mispredictedAt known s.numPlayers s.used f) with
    | some F =>
      let replay := (List.range' F (s.currentFrame - F)).map fun g =>
        SessionRequest.advance g (inputsFor known s.numPlayers g)
      Except.ok
        (SessionRequest.load ((F : ℤ) - 1) :: replay ++
          [SessionRequest.save (s.currentFrame : ℤ),
           SessionRequest.advance s.currentFrame (inputsFor known s.numPlayers s.currentFrame)],
         { s with
           currentFrame := s.currentFrame + 1
           used := s.used.take F ++
             (List.range' F (s.currentFrame - F)).map
               (fun g => (inputsFor known s.numPlayers g).map Prod.fst) ++
             [(inputsFor known s.numPlayers s.currentFrame).map Prod.fst] })
    | none =>
      Except.ok
        ([SessionRequest.save (s.currentFrame : ℤ),
          SessionRequest.advance s.currentFrame (inputsFor known s.numPlayers s.currentFrame)],
         { s with
           currentFrame := s.currentFrame + 1
           used := s.used ++ [(inputsFor known s.numPlayers s.currentFrame).map Prod.fst] })

/-- The frame ordinals attached to the `AdvanceFrame` requests of a request
list, in emission order. -/
def advFrames {I : Type} (rs : List (SessionRequest I)) : List ℕ :=
  rs.filterMap fun r =>
    match r with
    | .advance f _ => some f
    | _ => none

/-- Number of `AdvanceFrame` requests in a request list. -/
def countAdvance {I S : Type} (rs : List (GGRSRequest I S)) : ℕ :=
  rs.countP fun r =>
    match r with
    | .advanceFrame _ => true
    | _ => false

/-- Total number of `AdvanceFrame` requests handled across the ticks of a
trace (ticks that were skipped or errored handle none). -/
def traceAdvCount {I S : Type} (trace : List (TickRecord I S)) : ℕ :=
  (trace.map fun rec =>
    match rec.outcome with
    | .advanced rs => countAdvance rs
    | _ => 0).sum

/-! ### Arithmetic of the accumulator loop -/

lemma floor_div_step_pos {stepDur acc : ℚ} (h : 0 < stepDur) (hle : stepDur ≤ acc) :
    ⌊acc / stepDur⌋₊ = ⌊(acc - stepDur) / stepDur⌋₊ + 1 := by
  have h1 : (acc - stepDur) / stepDur = acc / stepDur - 1 := by
    field_simp
  have h2 : (1 : ℕ) ≤ ⌊acc / stepDur⌋₊ :=
    Nat.le_floor (by exact_mod_cast (one_le_div h).mpr hle)
  rw [h1, Nat.floor_sub_one]
  omega

lemma floor_div_step_zero {stepDur acc : ℚ} (h : 0 < stepDur) (hlt : ¬ stepDur ≤ acc) :
    ⌊acc / stepDur⌋₊ = 0 :=
  Nat.floor_eq_zero.mpr ((div_lt_one h).mpr (lt_of_not_le hlt))

/-! ### Properties of the tick loop -/

lemma tickLoop_length {I S : Type} [Inhabited S] (stepDur : ℚ)
    (adv : ℕ → Except GGRSError (List (GGRSRequest I S)))
    (stepFn : World I S → World I S) (localIdx : ℕ) (input : I)
    (h : 0 < stepDur) :
    ∀ (fuel : ℕ) (acc : ℚ) (skip nAdv : ℕ) (st : StepState I S),
      ⌊acc / stepDur⌋₊ ≤ fuel →
      (tickLoop stepDur adv stepFn localIdx input fuel acc skip nAdv st).trace.length
        = ⌊acc / stepDur⌋₊ := by
  intro fuel
  induction fuel with
  | zero =>
    intro acc skip nAdv st hf
    simp only [tickLoop, List.length_nil]
    omega
  | succ fuel ih =>
    intro acc skip nAdv st hf
    rw [tickLoop]
    by_cases hle : stepDur ≤ acc
    · have hkey := floor_div_step_pos h hle
      have hf2 : ⌊(acc - stepDur) / stepDur⌋₊ ≤ fuel := by omega
      rw [if_pos ⟨h, hle⟩]
      by_cases hskip : 0 < skip
      · rw [if_pos hskip]
        dsimp only
        rw [List.length_cons, ih _ _ _ _ hf2]
        omega
      · rw [if_neg hskip]
        cases hadv : adv nAdv with
        | ok reqs =>
          dsimp only
          rw [List.length_cons, ih _ _ _ _ hf2]
          omega
        | error e =>
          dsimp only
          rw [List.length_cons, ih _ _ _ _ hf2]
          omega
    · have h0 := floor_div_step_zero h hle
      rw [if_neg (by
        intro hc
        exact hle hc.2)]
      simp only [List.length_nil, h0]

lemma tickLoop_accumulator {I S : Type} [Inhabited S] (stepDur : ℚ)
    (adv : ℕ → Except GGRSError (List (GGRSRequest I S)))
    (stepFn : World I S → World I S) (localIdx : ℕ) (input : I) :
    ∀ (fuel : ℕ) (acc : ℚ) (skip nAdv : ℕ) (st : StepState I S),
      (tickLoop stepDur adv stepFn localIdx input fuel acc skip nAdv st).accumulator
        = acc - ((tickLoop stepDur adv stepFn localIdx input fuel acc skip nAdv st).trace.length : ℚ)
            * stepDur := by
  intro fuel
  induction fuel with
  | zero =>
    intro acc skip nAdv st
    simp [tickLoop]
  | succ fuel ih =>
    intro acc skip nAdv st
    rw [tickLoop]
    by_cases hguard : 0 < stepDur ∧ stepDur ≤ acc
    · rw [if_pos hguard]
      by_cases hskip : 0 < skip
      · rw [if_pos hskip]
        dsimp only
        rw [List.length_cons, ih]
        push_cast
        ring
      · rw [if_neg hskip]
        cases hadv : adv nAdv with
        | ok reqs =>
          dsimp only
          rw [List.length_cons, ih]
          push_cast
          ring
        | error e =>
          dsimp only
          rw [List.length_cons, ih]
          push_cast
          ring
    · rw [if_neg hguard]
      simp only [List.length_nil]
      push_cast
      ring

lemma tickLoop_submits {I S : Type} [Inhabited S] (stepDur : ℚ)
    (adv : ℕ → Except GGRSError (List (GGRSRequest I S)))
    (stepFn : World I S → World I S) (localIdx : ℕ) (input : I) :
    ∀ (fuel : ℕ) (acc : ℚ) (skip nAdv : ℕ) (st : StepState I S)
      (rec : TickRecord I S),
      rec ∈ (tickLoop stepDur adv stepFn localIdx input fuel acc skip nAdv st).trace →
      rec.submittedPlayer = localIdx ∧ rec.submittedInput = input := by
  intro fuel
  induction fuel with
  | zero =>
    intro acc skip nAdv st rec hrec
    simp [tickLoop] at hrec
  | succ fuel ih =>
    intro acc skip nAdv st rec hrec
    rw [tickLoop] at hrec
    by_cases hguard : 0 < stepDur ∧ stepDur ≤ acc
    · rw [if_pos hguard] at hrec
      by_cases hskip : 0 < skip
      · rw [if_pos hskip] at hrec
        dsimp only at hrec
        rcases List.mem_cons.mp hrec with h1 | h1
        · subst h1
          exact ⟨rfl, rfl⟩
        · exact ih _ _ _ _ _ h1
      · rw [if_neg hskip] at hrec
        cases hadv : adv nAdv with
        | ok reqs =>
          rw [hadv] at hrec
          dsimp only at hrec
          rcases List.mem_cons.mp hrec with h1 | h1
          · subst h1
            exact ⟨rfl, rfl⟩
          · exact ih _ _ _ _ _ h1
        | error e =>
          rw [hadv] at hrec
          dsimp only at hrec
          rcases List.mem_cons.mp hrec with h1 | h1
          · subst h1
            exact ⟨rfl, rfl⟩
          · exact ih _ _ _ _ _ h1
    · rw [if_neg hguard] at hrec
      simp at hrec

lemma tickLoop_take_skip {I S : Type} [Inhabited S] (stepDur : ℚ)
    (adv : ℕ → Except GGRSError (List (GGRSRequest I S)))
    (stepFn : World I S → World I S) (localIdx : ℕ) (input : I) :
    ∀ (fuel : ℕ) (acc : ℚ) (skip nAdv : ℕ) (st : StepState I S),
      (tickLoop stepDur adv stepFn localIdx input fuel acc skip nAdv st).trace.take skip
        = List.replicate
            (min skip (tickLoop stepDur adv stepFn localIdx input fuel acc skip nAdv st).trace.length)
            ⟨localIdx, input, TickOutcome.skipped⟩ := by
  intro fuel
  induction fuel with
  | zero =>
    intro acc skip nAdv st
    simp [tickLoop]
  | succ fuel ih =>
    intro acc skip nAdv st
    rw [tickLoop]
    by_cases hguard : 0 < stepDur ∧ stepDur ≤ acc
    · rw [if_pos hguard]
      by_cases hskip : 0 < skip
      · obtain ⟨s, rfl⟩ : ∃ s, skip = s + 1 := ⟨skip - 1, by omega⟩
        rw [if_pos hskip]
        dsimp only
        simp only [Nat.add_sub_cancel, List.take_succ_cons, List.length_cons]
        rw [ih]
        have hmin : min (s + 1) ((tickLoop stepDur adv stepFn localIdx input fuel
            (acc - stepDur) s nAdv st).trace.length + 1)
            = min s ((tickLoop stepDur adv stepFn localIdx input fuel
              (acc - stepDur) s nAdv st).trace.length) + 1 := by omega
        rw [hmin, List.replicate_succ]
      · have hz : skip = 0 := by omega
        subst hz
        simp
    · rw [if_neg hguard]
      simp

lemma tickLoop_drop_skip {I S : Type} [Inhabited S] (stepDur : ℚ)
    (adv : ℕ → Except GGRSError (List (GGRSRequest I S)))
    (stepFn : World I S → World I S) (localIdx : ℕ) (input : I) :
    ∀ (fuel : ℕ) (acc : ℚ) (skip nAdv : ℕ) (st : StepState I S)
      (rec : TickRecord I S),
      rec ∈ (tickLoop stepDur adv stepFn localIdx input fuel acc skip nAdv st).trace.drop skip →
      rec.outcome ≠ TickOutcome.skipped := by
  intro fuel
  induction fuel with
  | zero =>
    intro acc skip nAdv st rec hrec
    simp [tickLoop] at hrec
  | succ fuel ih =>
    intro acc skip nAdv st rec hrec
    rw [tickLoop] at hrec
    by_cases hguard : 0 < stepDur ∧ stepDur ≤ acc
    · rw [if_pos hguard] at hrec
      by_cases hskip : 0 < skip
      · obtain ⟨s, rfl⟩ : ∃ s, skip = s + 1 := ⟨skip - 1, by omega⟩
        rw [if_pos hskip] at hrec
        dsimp only at hrec
        rw [List.drop_succ_cons] at hrec
        have hs : s + 1 - 1 = s := by omega
        rw [hs] at hrec
        exact ih _ s _ _ _ hrec
      · have hz : skip = 0 := by omega
        subst hz
        rw [if_neg hskip] at hrec
        cases hadv : adv nAdv with
        | ok reqs =>
          rw [hadv] at hrec
          dsimp only at hrec
          rw [List.drop_zero] at hrec
          rcases List.mem_cons.mp hrec with h1 | h1
          · subst h1
            simp
          · exact ih _ 0 _ _ _ (by simpa using h1)
        | error e =>
          rw [hadv] at hrec
          dsimp only at hrec
          rw [List.drop_zero] at hrec
          rcases List.mem_cons.mp hrec with h1 | h1
          · subst h1
            simp
          · exact ih _ 0 _ _ _ (by simpa using h1)
    · rw [if_neg hguard] at hrec
      simp at hrec

lemma tickLoop_skipFrames {I S : Type} [Inhabited S] (stepDur : ℚ)
    (adv : ℕ → Except GGRSError (List (GGRSRequest I S)))
    (stepFn : World I S → World I S) (localIdx : ℕ) (input : I) :
    ∀ (fuel : ℕ) (acc : ℚ) (skip nAdv : ℕ) (st : StepState I S),
      (tickLoop stepDur adv stepFn localIdx input fuel acc skip nAdv st).skipFrames
        = skip - (tickLoop stepDur adv stepFn localIdx input fuel acc skip nAdv st).trace.length := by
  intro fuel
  induction fuel with
  | zero =>
    intro acc skip nAdv st
    simp [tickLoop]
  | succ fuel ih =>
    intro acc skip nAdv st
    rw [tickLoop]
    by_cases hguard : 0 < stepDur ∧ stepDur ≤ acc
    · rw [if_pos hguard]
      by_cases hskip : 0 < skip
      · rw [if_pos hskip]
        dsimp only
        rw [List.length_cons, ih]
        omega
      · have hz : skip = 0 := by omega
        subst hz
        rw [if_neg hskip]
        cases hadv : adv nAdv with
        | ok reqs =>
          dsimp only
          rw [List.length_cons, ih]
          omega
        | error e =>
          dsimp only
          rw [List.length_cons, ih]
          omega
    · rw [if_neg hguard]
      simp

lemma tickLoop_state_allerr {I S : Type} [Inhabited S] (stepDur : ℚ)
    (adv : ℕ → Except GGRSError (List (GGRSRequest I S)))
    (stepFn : World I S → World I S) (localIdx : ℕ) (input : I)
    (herr : ∀ m, ∃ e, adv m = Except.error e) :
    ∀ (fuel : ℕ) (acc : ℚ) (skip nAdv : ℕ) (st : StepState I S),
      (tickLoop stepDur adv stepFn localIdx input fuel acc skip nAdv st).state = st := by
  intro fuel
  induction fuel with
  | zero =>
    intro acc skip nAdv st
    simp [tickLoop]
  | succ fuel ih =>
    intro acc skip nAdv st
    rw [tickLoop]
    by_cases hguard : 0 < stepDur ∧ stepDur ≤ acc
    · rw [if_pos hguard]
      by_cases hskip : 0 < skip
      · rw [if_pos hskip]
        exact ih _ _ _ _
      · rw [if_neg hskip]
        cases hadv : adv nAdv with
        | ok reqs =>
          obtain ⟨e, he⟩ := herr nAdv
          rw [he] at hadv
          cases hadv
        | error e =>
          exact ih _ _ _ _
    · rw [if_neg hguard]

lemma tickLoop_outcomes_allerr {I S : Type} [Inhabited S] (stepDur : ℚ)
    (adv : ℕ → Except GGRSError (List (GGRSRequest I S)))
    (stepFn : World I S → World I S) (localIdx : ℕ) (input : I)
    (herr : ∀ m, ∃ e, adv m = Except.error e) :
    ∀ (fuel : ℕ) (acc : ℚ) (skip nAdv : ℕ) (st : StepState I S)
      (rec : TickRecord I S),
      rec ∈ (tickLoop stepDur adv stepFn localIdx input fuel acc skip nAdv st).trace →
      rec.outcome = TickOutcome.skipped ∨ ∃ e, rec.outcome = TickOutcome.errored e := by
  intro fuel
  induction fuel with
  | zero =>
    intro acc skip nAdv st rec hrec
    simp [tickLoop] at hrec
  | succ fuel ih =>
    intro acc skip nAdv st rec hrec
    rw [tickLoop] at hrec
    by_cases hguard : 0 < stepDur ∧ stepDur ≤ acc
    · rw [if_pos hguard] at hrec
      by_cases hskip : 0 < skip
      · rw [if_pos hskip] at hrec
        dsimp only at hrec
        rcases List.mem_cons.mp hrec with h1 | h1
        · subst h1
          exact Or.inl rfl
        · exact ih _ _ _ _ _ h1
      · rw [if_neg hskip] at hrec
        cases hadv : adv nAdv with
        | ok reqs =>
          obtain ⟨e, he⟩ := herr nAdv
          rw [he] at hadv
          cases hadv
        | error e =>
          rw [hadv] at hrec
          dsimp only at hrec
          rcases List.mem_cons.mp hrec with h1 | h1
          · subst h1
            exact Or.inr ⟨e, rfl⟩
          · exact ih _ _ _ _ _ h1
    · rw [if_neg hguard] at hrec
      simp at hrec

/-! ### Counting handled AdvanceFrame requests -/

lemma processRequests_collectorFrames {I S : Type} [Inhabited S] (stepDur : ℚ)
    (stepFn : World I S → World I S) :
    ∀ (rs : List (GGRSRequest I S)) (st : StepState I S),
      (processRequests stepDur stepFn st rs).collectorFrames
        = st.collectorFrames + countAdvance rs := by
  intro rs
  induction rs with
  | nil =>
    intro st
    simp [processRequests, countAdvance]
  | cons r rest ih =>
    intro st
    show (processRequests stepDur stepFn (processRequest stepDur stepFn st r) rest).collectorFrames = _
    rw [ih]
    cases r with
    | saveGameState f => simp [processRequest, countAdvance, List.countP_cons]
    | loadGameState f => simp [processRequest, countAdvance, List.countP_cons]
    | advanceFrame inputs =>
      simp only [processRequest, countAdvance, List.countP_cons]
      simp
      omega

lemma processRequests_stagesRuns {I S : Type} [Inhabited S] (stepDur : ℚ)
    (stepFn : World I S → World I S) :
    ∀ (rs : List (GGRSRequest I S)) (st : StepState I S),
      (processRequests stepDur stepFn st rs).stagesRuns
        = st.stagesRuns + countAdvance rs := by
  intro rs
  induction rs with
  | nil =>
    intro st
    simp [processRequests, countAdvance]
  | cons r rest ih =>
    intro st
    show (processRequests stepDur stepFn (processRequest stepDur stepFn st r) rest).stagesRuns = _
    rw [ih]
    cases r with
    | saveGameState f => simp [processRequest, countAdvance, List.countP_cons]
    | loadGameState f => simp [processRequest, countAdvance, List.countP_cons]
    | advanceFrame inputs =>
      simp only [processRequest, countAdvance, List.countP_cons]
      simp
      omega

lemma traceAdvCount_cons_skipped {I S : Type} (p : ℕ) (i : I)
    (trace : List (TickRecord I S)) :
    traceAdvCount (⟨p, i, TickOutcome.skipped⟩ :: trace) = traceAdvCount trace := by
  simp [traceAdvCount]

lemma traceAdvCount_cons_errored {I S : Type} (p : ℕ) (i : I) (e : GGRSError)
    (trace : List (TickRecord I S)) :
    traceAdvCount (⟨p, i, TickOutcome.errored e⟩ :: trace) = traceAdvCount trace := by
  simp [traceAdvCount]

lemma traceAdvCount_cons_advanced {I S : Type} (p : ℕ) (i : I)
    (rs : List (GGRSRequest I S)) (trace : List (TickRecord I S)) :
    traceAdvCount (⟨p, i, TickOutcome.advanced rs⟩ :: trace)
      = countAdvance rs + traceAdvCount trace := by
  simp [traceAdvCount]

lemma tickLoop_collectorFrames {I S : Type} [Inhabited S] (stepDur : ℚ)
    (adv : ℕ → Except GGRSError (List (GGRSRequest I S)))
    (stepFn : World I S → World I S) (localIdx : ℕ) (input : I) :
    ∀ (fuel : ℕ) (acc : ℚ) (skip nAdv : ℕ) (st : StepState I S),
      (tickLoop stepDur adv stepFn localIdx input fuel acc skip nAdv st).state.collectorFrames
        = st.collectorFrames
          + traceAdvCount (tickLoop stepDur adv stepFn localIdx input fuel acc skip nAdv st).trace := by
  intro fuel
  induction fuel with
  | zero =>
    intro acc skip nAdv st
    simp [tickLoop, traceAdvCount]
  | succ fuel ih =>
    intro acc skip nAdv st
    rw [tickLoop]
    by_cases hguard : 0 < stepDur ∧ stepDur ≤ acc
    · rw [if_pos hguard]
      by_cases hskip : 0 < skip
      · rw [if_pos hskip]
        dsimp only
        rw [traceAdvCount_cons_skipped, ih]
      · rw [if_neg hskip]
        cases hadv : adv nAdv with
        | ok reqs =>
          dsimp only
          rw [traceAdvCount_cons_advanced, ih, processRequests_collectorFrames]
          omega
        | error e =>
          dsimp only
          rw [traceAdvCount_cons_errored, ih]
    · rw [if_neg hguard]
      simp [traceAdvCount]

lemma tickLoop_stagesRuns {I S : Type} [Inhabited S] (stepDur : ℚ)
    (adv : ℕ → Except GGRSError (List (GGRSRequest I S)))
    (stepFn : World I S → World I S) (localIdx : ℕ) (input : I) :
    ∀ (fuel : ℕ) (acc : ℚ) (skip nAdv : ℕ) (st : StepState I S),
      (tickLoop stepDur adv stepFn localIdx input fuel acc skip nAdv st).state.stagesRuns
        = st.stagesRuns
          + traceAdvCount (tickLoop stepDur adv stepFn localIdx input fuel acc skip nAdv st).trace := by
  intro fuel
  induction fuel with
  | zero =>
    intro acc skip nAdv st
    simp [tickLoop, traceAdvCount]
  | succ fuel ih =>
    intro acc skip nAdv st
    rw [tickLoop]
    by_cases hguard : 0 < stepDur ∧ stepDur ≤ acc
    · rw [if_pos hguard]
      by_cases hskip : 0 < skip
      · rw [if_pos hskip]
        dsimp only
        rw [traceAdvCount_cons_skipped, ih]
      · rw [if_neg hskip]
        cases hadv : adv nAdv with
        | ok reqs =>
          dsimp only
          rw [traceAdvCount_cons_advanced, ih, processRequests_stagesRuns]
          omega
        | error e =>
          dsimp only
          rw [traceAdvCount_cons_errored, ih]
    · rw [if_neg hguard]
      simp [traceAdvCount]

/-! ### Event drain -/

lemma drainEvents_go (events : List GGRSEvent) :
    ∀ (sk : ℕ) (ls : List LogEntry),
      events.foldl (fun acc e => (eventSkip acc.1 e, acc.2 ++ (eventLog e).toList)) (sk, ls)
        = (events.foldl eventSkip sk, ls ++ events.filterMap eventLog) := by
  induction events with
  | nil =>
    intro sk ls
    simp
  | cons e rest ih =>
    intro sk ls
    simp only [List.foldl_cons, ih, List.filterMap_cons]
    cases h : eventLog e <;> simp [h]

lemma drainEvents_eq (events : List GGRSEvent) :
    drainEvents events = (events.foldl eventSkip 0, events.filterMap eventLog) := by
  simpa [drainEvents] using drainEvents_go events 0 []

/-! ### Request processing -/

lemma processRequests_append {I S : Type} [Inhabited S] (stepDur : ℚ)
    (stepFn : World I S → World I S) (st : StepState I S)
    (rs rt : List (GGRSRequest I S)) :
    processRequests stepDur stepFn st (rs ++ rt)
      = processRequests stepDur stepFn (processRequests stepDur stepFn st rs) rt := by
  simp [processRequests, List.foldl_append]

lemma lookupCell_processRequests {I S : Type} [Inhabited S] (stepDur : ℚ)
    (stepFn : World I S → World I S) (frame : ℤ) :
    ∀ (rs : List (GGRSRequest I S)) (st : StepState I S),
      GGRSRequest.saveGameState frame ∉ rs →
      lookupCell frame (processRequests stepDur stepFn st rs).cells
        = lookupCell frame st.cells := by
  intro rs
  induction rs with
  | nil =>
    intro st _
    rfl
  | cons r rest ih =>
    intro st h
    have hr : (GGRSRequest.saveGameState frame : GGRSRequest I S) ≠ r := by
      intro hh
      exact h (hh ▸ List.mem_cons_self _ _)
    have hrest : (GGRSRequest.saveGameState frame : GGRSRequest I S) ∉ rest := by
      intro hh
      exact h (List.mem_cons_of_mem _ hh)
    show lookupCell frame (processRequests stepDur stepFn (processRequest stepDur stepFn st r) rest).cells = _
    rw [ih _ hrest]
    cases r with
    | saveGameState g =>
      have hg : g ≠ frame := by
        rintro rfl
        exact hr rfl
      simp [processRequest, lookupCell, hg]
    | loadGameState g => rfl
    | advanceFrame inputs => rfl

lemma processRequests_advanceWorld {I S : Type} [Inhabited S] (stepDur : ℚ)
    (stepFn : World I S → World I S) :
    ∀ (l : List (List (I × NetworkInputStatus))) (st : StepState I S),
      (processRequests stepDur stepFn st (l.map GGRSRequest.advanceFrame)).world
        = l.foldl (fun w inputs => stepFn (applyTick stepDur w inputs)) st.world := by
  intro l
  induction l with
  | nil =>
    intro st
    rfl
  | cons inputs rest ih =>
    intro st
    show (processRequests stepDur stepFn
      (processRequest stepDur stepFn st (GGRSRequest.advanceFrame inputs))
      (rest.map GGRSRequest.advanceFrame)).world = _
    rw [ih]
    rfl

/-! ### Applying network inputs into the controls resource -/

lemma applyNetworkInputsFrom_getElem?_lt {I : Type} :
    ∀ (xs cs : List (I × NetworkInputStatus)) (start j : ℕ), j < start →
      (applyNetworkInputsFrom cs xs start)[j]? = cs[j]? := by
  intro xs
  induction xs with
  | nil =>
    intro cs start j _
    rfl
  | cons x rest ih =>
    intro cs start j hj
    show (applyNetworkInputsFrom (cs.set start x) rest (start + 1))[j]? = _
    rw [ih _ _ _ (by omega)]
    exact List.getElem?_set_ne (by omega)

lemma applyNetworkInputsFrom_length {I : Type} :
    ∀ (xs cs : List (I × NetworkInputStatus)) (start : ℕ),
      (applyNetworkInputsFrom cs xs start).length = cs.length := by
  intro xs
  induction xs with
  | nil =>
    intro cs start
    rfl
  | cons x rest ih =>
    intro cs start
    show (applyNetworkInputsFrom (cs.set start x) rest (start + 1)).length = _
    rw [ih, List.length_set]

lemma applyNetworkInputsFrom_getElem? {I : Type} :
    ∀ (xs cs : List (I × NetworkInputStatus)) (start i : ℕ),
      i < xs.length → start + i < cs.length →
      (applyNetworkInputsFrom cs xs start)[start + i]? = xs[i]? := by
  intro xs
  induction xs with
  | nil =>
    intro cs start i hi _
    simp at hi
  | cons x rest ih =>
    intro cs start i hi hlen
    show (applyNetworkInputsFrom (cs.set start x) rest (start + 1))[start + i]? = _
    cases i with
    | zero =>
      rw [applyNetworkInputsFrom_getElem?_lt rest _ _ _ (by omega), Nat.add_zero,
        List.getElem?_set_self (show start < cs.length by omega)]
      simp
    | succ i =>
      have h1 : start + (i + 1) = (start + 1) + i := by omega
      rw [h1, ih _ _ _ (by simpa using hi) (by simp; omega)]
      simp

lemma applyNetworkInputs_getElem? {I : Type}
    (controls inputs : List (I × NetworkInputStatus)) (i : ℕ)
    (hi : i < inputs.length) (hc : i < controls.length) :
    (applyNetworkInputs controls inputs)[i]? = inputs[i]? := by
  have := applyNetworkInputsFrom_getElem? inputs controls 0 i hi (by omega)
  simpa [applyNetworkInputs] using this

/-! ### Local-player computation at construction -/

lemma foldl_localIdx_none (flags : List Bool) :
    ∀ (l : List ℕ) (acc : Option ℕ), (∀ i ∈ l, flags.getD i false = false) →
      l.foldl (fun acc i => if flags.getD i false then some i else acc) acc = acc := by
  intro l
  induction l with
  | nil =>
    intro acc _
    rfl
  | cons j rest ih =>
    intro acc h
    have hj : flags.getD j false = false := h j (List.mem_cons_self _ _)
    show rest.foldl _ (if flags.getD j false then some j else acc) = acc
    rw [if_neg (by rw [hj]; simp)]
    exact ih _ (fun i hi => h i (List.mem_cons_of_mem _ hi))

lemma foldl_localIdx_some (flags : List Bool) :
    ∀ (l : List ℕ) (acc : Option ℕ) (idx : ℕ),
      l.foldl (fun acc i => if flags.getD i false then some i else acc) acc = some idx →
      acc = some idx ∨ (idx ∈ l ∧ flags.getD idx false = true) := by
  intro l
  induction l with
  | nil =>
    intro acc idx h
    exact Or.inl h
  | cons j rest ih =>
    intro acc idx h
    rcases ih _ _ h with h1 | h1
    · have h2 : (if flags.getD j false then some j else acc) = some idx := h1
      by_cases hj : flags.getD j false = true
      · rw [if_pos hj] at h2
        have hji : j = idx := by
          injection h2
        subst hji
        exact Or.inr ⟨List.mem_cons_self _ _, hj⟩
      · rw [if_neg hj] at h2
        exact Or.inl h2
    · exact Or.inr ⟨List.mem_cons_of_mem _ h1.1, h1.2⟩

/-- Claim C9: constructing a session whose per-participant locality flags
contain no local slot fails (the source's `expect` panic, modelled as
`Except.error`, surfaces immediately as a hard failure), and every
successfully constructed runner has a local participant slot below the
participant count, i.e. for all valid configurations at least one local
slot exists. -/
theorem construction_requires_local_player {I : Type} [Inhabited I]
    (simulationFps : ℚ) (flags : List Bool) (playerCount : ℕ) :
    ((∀ i, i < playerCount → flags.getD i false = false) →
      (GgrsSessionRunner.new (I := I) simulationFps flags playerCount).isOk = false) ∧
    (∀ r : GgrsSessionRunner I,
      GgrsSessionRunner.new simulationFps flags playerCount = Except.ok r →
      r.localPlayerIdx < playerCount ∧ flags.getD r.localPlayerIdx false = true) := by
  constructor
  · intro hall
    have hnone : computeLocalPlayerIdx flags playerCount = none := by
      unfold computeLocalPlayerIdx
      exact foldl_localIdx_none flags _ none
        (fun i hi => hall i (List.mem_range.mp hi))
    simp [GgrsSessionRunner.new, hnone, Except.isOk, Except.toBool]
  · intro r hr
    simp only [GgrsSessionRunner.new] at hr
    cases hcomp : computeLocalPlayerIdx flags playerCount with
    | none =>
      rw [hcomp] at hr
      cases hr
    | some idx =>
      rw [hcomp] at hr
      injection hr with hr2
      have hidx : r.localPlayerIdx = idx := by
        rw [← hr2]
      rw [hidx]
      unfold computeLocalPlayerIdx at hcomp
      rcases foldl_localIdx_some flags _ none idx hcomp with h1 | h1
      · cases h1
      · exact ⟨List.mem_range.mp h1.1, h1.2⟩

/-- Claim C10: handling a `LoadGameState` request is total at the
interface: if no snapshot was stored in the cell for the requested frame
(`cell.load()` is `None`), the runner replaces the simulation state with a
default-constructed (empty) world (`unwrap_or_default`) instead of failing
or leaving the state unchanged. -/
theorem load_missing_snapshot_defaults {I S : Type} [Inhabited S] (stepDur : ℚ)
    (stepFn : World I S → World I S) (st : StepState I S) (frame : ℤ)
    (h : lookupCell frame st.cells = none) :
    (processRequest stepDur stepFn st (GGRSRequest.loadGameState frame)).world
      = (⟨0, [], default⟩ : World I S) := by
  show (lookupCell frame st.cells).getD default = _
  rw [h]
  rfl

/-- Claim C4: the network tick rate equals the host simulation rate times
the fixed factor 0.9, rounded to the nearest integer (on the representable
range the source's clamps to `[usize::MIN, usize::MAX]` do not change the
value); a constructed runner stores exactly that integer rate, and the
fixed tick duration used both for accumulator pacing and for advancing the
simulation clock is `1 / network_fps`, derived from that same integer. -/
theorem network_rate_derivation {I : Type} [Inhabited I] (simulationFps : ℚ)
    (h0 : 0 ≤ simulationFps)
    (hmax : simulationFps * NETWORK_FRAME_RATE_FACTOR ≤ USIZE_MAX) :
    ((networkFpsOf simulationFps : ℤ) = round (simulationFps * NETWORK_FRAME_RATE_FACTOR)) ∧
    (∀ (flags : List Bool) (pc : ℕ) (r : GgrsSessionRunner I),
      GgrsSessionRunner.new simulationFps flags pc = Except.ok r →
      r.networkFps = (networkFpsOf simulationFps : ℚ) ∧
      stepDuration r.networkFps = 1 / (networkFpsOf simulationFps : ℚ)) := by
  have hfac : (0 : ℚ) ≤ NETWORK_FRAME_RATE_FACTOR := by
    norm_num [NETWORK_FRAME_RATE_FACTOR]
  have hy : 0 ≤ simulationFps * NETWORK_FRAME_RATE_FACTOR := mul_nonneg h0 hfac
  constructor
  · unfold networkFpsOf
    rw [max_eq_left hy, min_eq_left hmax]
    have hr : 0 ≤ round (simulationFps * NETWORK_FRAME_RATE_FACTOR) := by
      rw [round_eq]
      exact Int.floor_nonneg.mpr (by linarith)
    exact Int.toNat_of_nonneg hr
  · intro flags pc r hr
    simp only [GgrsSessionRunner.new] at hr
    cases hcomp : computeLocalPlayerIdx flags pc with
    | none =>
      rw [hcomp] at hr
      cases hr
    | some idx =>
      rw [hcomp] at hr
      injection hr with hr2
      constructor
      · rw [← hr2]
      · rw [← hr2]
        rfl

lemma processRequests_cons {I S : Type} [Inhabited S] (stepDur : ℚ)
    (stepFn : World I S → World I S) (st : StepState I S)
    (r : GGRSRequest I S) (rs : List (GGRSRequest I S)) :
    processRequests stepDur stepFn st (r :: rs)
      = processRequests stepDur stepFn (processRequest stepDur stepFn st r) rs := rfl

/-- Claim C1: rollback correctness. Starting from the state at the end of
frame `F - 1` (world `w0`, snapshotted by `SaveGameState f`), first
advancing frame `F` with a predicted input list `predicted` different from
the true one, then speculating further (`specTail`, which never re-saves
frame `f`), and finally handling the emitted `LoadGameState f` (restoring
the snapshot of frame `F - 1`) followed by the re-issued `AdvanceFrame`
requests with the corrected inputs, produces exactly the same final
simulation state as a straight-line run in which the true inputs had been
known from the start. The step function is a pure deterministic function
of the prior state and the per-participant inputs by construction. -/
theorem rollback_correctness {I S : Type} [Inhabited S] (stepDur : ℚ)
    (stepFn : World I S → World I S) (w0 : World I S)
    (cells0 : List (ℤ × World I S)) (c0 n0 : ℕ) (f : ℤ)
    (predicted trueFirst : List (I × NetworkInputStatus))
    (specTail : List (GGRSRequest I S))
    (trueRest : List (List (I × NetworkInputStatus)))
    (_hne : predicted ≠ trueFirst)
    (hsave : GGRSRequest.saveGameState f ∉ specTail) :
    (processRequests stepDur stepFn ⟨w0, cells0, c0, n0⟩
      (GGRSRequest.saveGameState f :: GGRSRequest.advanceFrame predicted :: specTail
        ++ GGRSRequest.loadGameState f
          :: (trueFirst :: trueRest).map GGRSRequest.advanceFrame)).world
      = (processRequests stepDur stepFn ⟨w0, cells0, c0, n0⟩
          (GGRSRequest.saveGameState f
            :: (trueFirst :: trueRest).map GGRSRequest.advanceFrame)).world := by
  have h1 : (GGRSRequest.saveGameState f :: GGRSRequest.advanceFrame predicted :: specTail
        ++ GGRSRequest.loadGameState f
          :: (trueFirst :: trueRest).map GGRSRequest.advanceFrame)
      = (GGRSRequest.saveGameState f :: GGRSRequest.advanceFrame predicted :: specTail)
        ++ (GGRSRequest.loadGameState f
          :: (trueFirst :: trueRest).map GGRSRequest.advanceFrame) := rfl
  rw [h1, processRequests_append]
  simp only [processRequests_cons]
  simp only [processRequests_advanceWorld]
  congr 1
  have hlook : lookupCell f (processRequests stepDur stepFn
      (processRequest stepDur stepFn
        (processRequest stepDur stepFn ⟨w0, cells0, c0, n0⟩ (GGRSRequest.saveGameState f))
        (GGRSRequest.advanceFrame predicted)) specTail).cells = some w0 := by
    rw [lookupCell_processRequests stepDur stepFn f specTail _ hsave]
    show lookupCell f ((f, w0) :: cells0) = some w0
    simp [lookupCell]
  show (lookupCell f (processRequests stepDur stepFn _ specTail).cells).getD default = _
  rw [hlook]
  rfl

/-! ### Frame ordinals of the Peer Session's AdvanceFrame requests -/

lemma advFrames_cons_load {I : Type} (f : ℤ) (rs : List (SessionRequest I)) :
    advFrames (SessionRequest.load f :: rs) = advFrames rs := by
  simp [advFrames]

lemma advFrames_cons_save {I : Type} (f : ℤ) (rs : List (SessionRequest I)) :
    advFrames (SessionRequest.save f :: rs) = advFrames rs := by
  simp [advFrames]

lemma advFrames_cons_advance {I : Type} (f : ℕ)
    (inputs : List (I × NetworkInputStatus)) (rs : List (SessionRequest I)) :
    advFrames (SessionRequest.advance f inputs :: rs) = f :: advFrames rs := by
  simp [advFrames]

lemma advFrames_append {I : Type} (rs rt : List (SessionRequest I)) :
    advFrames (rs ++ rt) = advFrames rs ++ advFrames rt := by
  simp [advFrames, List.filterMap_append]

lemma advFrames_nil {I : Type} : advFrames ([] : List (SessionRequest I)) = [] := rfl

lemma advFrames_map_advance {I : Type} (inp : ℕ → List (I × NetworkInputStatus)) :
    ∀ l : List ℕ,
      advFrames (l.map fun g => SessionRequest.advance g (inp g)) = l := by
  intro l
  induction l with
  | nil => rfl
  | cons a rest ih =>
    rw [List.map_cons, advFrames_cons_advance, ih]

/-- Claim C2: frame ordinals of emitted `AdvanceFrame` requests. For every
successful `advance` of the (spec-modelled) Peer Session, the frame
ordinals attached to the `AdvanceFrame` requests it emits form a
consecutive run `F, F+1, …, currentFrame` increasing by exactly 1 per
request; the requests up to `currentFrame - 1` are a rollback replay that
re-executes already-assigned frame numbers without renumbering them
(`F ≤ currentFrame`), exactly one new frame number (`currentFrame`) is
assigned, and the session's frame counter advances by exactly 1 — so over
the session's lifetime new frame numbers are never skipped or repeated. -/
theorem advance_frame_ordinals {I : Type} [DecidableEq I] [Inhabited I]
    (s s2 : PeerSession I) (known : ℕ → ℕ → Option I)
    (rs : List (SessionRequest I))
    (h : s.advance known = Except.ok (rs, s2)) :
    s2.currentFrame = s.currentFrame + 1 ∧
    ∃ F, F ≤ s.currentFrame ∧
      advFrames rs = List.range' F (s.currentFrame + 1 - F) := by
  simp only [PeerSession.advance] at h
  split at h
  · cases h
  · split at h
    next F hF =>
      injection h with h2
      injection h2 with hrs hs2
      subst hrs
      subst hs2
      have hFlt : F < s.currentFrame :=
        List.mem_range.mp (List.mem_of_find?_eq_some hF)
      refine ⟨rfl, F, le_of_lt hFlt, ?_⟩
      rw [advFrames_append, advFrames_cons_load,
        advFrames_map_advance (fun g => inputsFor known s.numPlayers g),
        advFrames_cons_save, advFrames_cons_advance, advFrames_nil]
      have hn : s.currentFrame + 1 - F = (s.currentFrame - F) + 1 := by omega
      rw [hn, List.range'_concat]
      have hc : F + 1 * (s.currentFrame - F) = s.currentFrame := by omega
      rw [hc]
    next hF =>
      injection h with h2
      injection h2 with hrs hs2
      subst hrs
      subst hs2
      refine ⟨rfl, s.currentFrame, le_refl _, ?_⟩
      rw [advFrames_cons_save, advFrames_cons_advance, advFrames_nil]
      simp

lemma runTicks_length {I S : Type} [Inhabited S] {stepDur : ℚ} (h : 0 < stepDur)
    (adv : ℕ → Except GGRSError (List (GGRSRequest I S)))
    (stepFn : World I S → World I S) (localIdx : ℕ) (input : I)
    (acc : ℚ) (skip : ℕ) (st : StepState I S) :
    (runTicks stepDur adv stepFn localIdx input acc skip st).trace.length
      = ⌊acc / stepDur⌋₊ :=
  tickLoop_length stepDur adv stepFn localIdx input h _ acc skip 0 st (le_refl _)

/-- Claim C3: accumulator pacing. For a session whose accumulator is empty,
a single `step` call with elapsed real time `T` since the previous call
attempts exactly `⌊T * R⌋₊` simulation ticks, where `R` is the configured
network tick rate — independently of skip or freeze conditions, which only
change what each attempted tick does (the trace length counts every
iteration of the `while accumulator >= step` loop). -/
theorem accumulator_pacing {I S : Type} [Inhabited S] (r : GgrsSessionRunner I)
    (t0 T : ℚ) (localInput : Option I) (events : List GGRSEvent)
    (adv : ℕ → Except GGRSError (List (GGRSRequest I S)))
    (stepFn : World I S → World I S) (st : StepState I S)
    (hacc : r.accumulator = 0) (hlast : r.lastRun = some t0)
    (hfps : 0 < r.networkFps) (_hT : 0 ≤ T) :
    (runnerStep r (t0 + T) localInput events adv stepFn st).trace.length
      = ⌊T * r.networkFps⌋₊ := by
  have hstep : 0 < stepDuration r.networkFps := by
    unfold stepDuration
    exact one_div_pos.mpr hfps
  show (runTicks (stepDuration r.networkFps) adv stepFn r.localPlayerIdx
      (localInput.getD r.lastPlayerInput)
      (r.accumulator + ((t0 + T) - r.lastRun.getD (t0 + T)))
      (drainEvents events).1 st).trace.length = _
  rw [runTicks_length hstep]
  have hacc2 : r.accumulator + ((t0 + T) - r.lastRun.getD (t0 + T)) = T := by
    rw [hacc, hlast]
    show 0 + ((t0 + T) - t0) = T
    ring
  rw [hacc2, stepDuration, div_div_eq_mul_div, div_one]

/-- Claim C5: skip semantics. When draining the events yields a pending
skip counter `k` (set by `WaitRecommendation(k)`), every tick of the call
still submits the locally captured input for the local slot, the first
`min k n` of the `n` ticks performed are skipped (no `advance_frame`
request), every tick after the first `k` is not skipped, and the final
value of the skip counter is `k` minus one decrement per skipped tick. -/
theorem skip_semantics {I S : Type} [Inhabited S] (r : GgrsSessionRunner I)
    (frameStart : ℚ) (localInput : Option I) (events : List GGRSEvent)
    (adv : ℕ → Except GGRSError (List (GGRSRequest I S)))
    (stepFn : World I S → World I S) (st : StepState I S) (k : ℕ)
    (hk : (drainEvents events).1 = k) :
    (∀ rec ∈ (runnerStep r frameStart localInput events adv stepFn st).trace,
        rec.submittedPlayer = r.localPlayerIdx ∧
        rec.submittedInput = localInput.getD r.lastPlayerInput) ∧
    (runnerStep r frameStart localInput events adv stepFn st).trace.take k
      = List.replicate
          (min k (runnerStep r frameStart localInput events adv stepFn st).trace.length)
          ⟨r.localPlayerIdx, localInput.getD r.lastPlayerInput, TickOutcome.skipped⟩ ∧
    (∀ rec ∈ (runnerStep r frameStart localInput events adv stepFn st).trace.drop k,
        rec.outcome ≠ TickOutcome.skipped) ∧
    (runnerStep r frameStart localInput events adv stepFn st).finalSkipFrames
      = k - (runnerStep r frameStart localInput events adv stepFn st).trace.length := by
  subst hk
  simp only [runnerStep, runTicks]
  refine ⟨?_, ?_, ?_, ?_⟩
  · intro rec hrec
    exact tickLoop_submits _ _ _ _ _ _ _ _ _ _ _ hrec
  · exact tickLoop_take_skip _ _ _ _ _ _ _ _ _ _
  · intro rec hrec
    exact tickLoop_drop_skip _ _ _ _ _ _ _ _ _ _ _ hrec
  · exact tickLoop_skipFrames _ _ _ _ _ _ _ _ _ _

/-- Claim C6 (counterexample): the tick that observes `PredictionThreshold`
has already consumed one fixed-tick duration from the accumulator (the
source subtracts `step` before calling `advance_frame` and does not restore
it on error). Starting with accumulator `1` and tick duration `1`, one tick
is attempted, `advance_frame` yields `PredictionThreshold`, and the final
accumulator is `0` — not the unconsumed `1` the claim requires. -/
theorem prediction_threshold_consumes_accumulator :
    (runTicks (I := ℕ) (S := ℕ) 1
        (fun _ => Except.error GGRSError.predictionThreshold)
        id 0 0 1 0 ⟨⟨0, [], 0⟩, [], 0, 0⟩).accumulator = 0 ∧
    (0 : ℚ) ≠ 1 := by
  constructor
  · have h1 : (0 : ℚ) < 1 := one_pos
    have hlen := runTicks_length h1
      (fun _ => Except.error GGRSError.predictionThreshold) id 0 0 1 0
      (⟨⟨0, [], 0⟩, [], 0, 0⟩ : StepState ℕ ℕ)
    have hac := tickLoop_accumulator (1 : ℚ)
      (fun _ => Except.error GGRSError.predictionThreshold) id 0 0
      (⌊(1 : ℚ) / 1⌋₊) 1 0 0 (⟨⟨0, [], 0⟩, [], 0, 0⟩ : StepState ℕ ℕ)
    rw [show tickLoop (1 : ℚ) (fun _ => Except.error GGRSError.predictionThreshold)
        id 0 0 (⌊(1 : ℚ) / 1⌋₊) 1 0 0 (⟨⟨0, [], 0⟩, [], 0, 0⟩ : StepState ℕ ℕ)
        = runTicks 1 (fun _ => Except.error GGRSError.predictionThreshold)
          id 0 0 1 0 ⟨⟨0, [], 0⟩, [], 0, 0⟩ from rfl] at hac
    rw [hac, hlen]
    norm_num
  · norm_num

/-- Claim C6 (amended): when `advance_frame` yields `NotSynchronized`,
`PredictionThreshold`, or any other protocol condition, the tick is skipped
with no simulation-state mutation, the condition never propagates outward
and is retried automatically on the next tick (every eligible tick is still
attempted); each such tick does, however, consume one fixed-tick duration
from the accumulator, which is subtracted before `advance_frame` is called
and not restored on error. -/
theorem tick_error_handling {I S : Type} [Inhabited S] (stepDur acc : ℚ)
    (adv : ℕ → Except GGRSError (List (GGRSRequest I S)))
    (errs : ℕ → GGRSError) (stepFn : World I S → World I S)
    (localIdx : ℕ) (input : I) (skip : ℕ) (st : StepState I S)
    (herr : ∀ m, adv m = Except.error (errs m)) (h : 0 < stepDur) :
    (runTicks stepDur adv stepFn localIdx input acc skip st).state = st ∧
    (runTicks stepDur adv stepFn localIdx input acc skip st).trace.length
      = ⌊acc / stepDur⌋₊ ∧
    (runTicks stepDur adv stepFn localIdx input acc skip st).accumulator
      = acc - (⌊acc / stepDur⌋₊ : ℚ) * stepDur ∧
    (∀ rec ∈ (runTicks stepDur adv stepFn localIdx input acc skip st).trace,
      rec.outcome = TickOutcome.skipped ∨ ∃ e, rec.outcome = TickOutcome.errored e) := by
  have herr2 : ∀ m, ∃ e, adv m = Except.error e := fun m => ⟨errs m, herr m⟩
  have hlen := runTicks_length h adv stepFn localIdx input acc skip st
  refine ⟨?_, hlen, ?_, ?_⟩
  · exact tickLoop_state_allerr _ _ _ _ _ herr2 _ _ _ _ _
  · have hac := tickLoop_accumulator stepDur adv stepFn localIdx input
      (⌊acc / stepDur⌋₊) acc skip 0 st
    rw [show (tickLoop stepDur adv stepFn localIdx input (⌊acc / stepDur⌋₊) acc skip 0 st)
        = runTicks stepDur adv stepFn localIdx input acc skip st from rfl] at hac
    rw [hac, hlen]
  · intro rec hrec
    exact tickLoop_outcomes_allerr _ _ _ _ _ herr2 _ _ _ _ _ _ hrec

/-- Claim C7 (counterexample): draining a pending `Disconnected` event
produces no log entry and no report at all — the `Disconnected { .. }` arm
of the event match is an empty body — so "logs or reports each one,
including Disconnected" fails on the code. -/
theorem disconnected_event_unlogged :
    (drainEvents [GGRSEvent.disconnected 3]).2 = [] ∧
    eventLog (GGRSEvent.disconnected 3) = none := by
  exact ⟨rfl, rfl⟩

/-- Claim C7 (amended): every call to `step` drains every pending event and
logs each one except `Disconnected`, whose handler is currently an empty
body; a `DesyncDetected` event is surfaced as an error-level log entry with
the frame and both checksums, and the session continues processing
subsequent ticks identically, discarding no unrelated state and not
terminating (the step's resulting state, trace and runner are the same as
without the desync event). -/
theorem event_reporting {I S : Type} [Inhabited S] (events E : List GGRSEvent)
    (f : ℤ) (lc rc a : ℕ) (r : GgrsSessionRunner I) (frameStart : ℚ)
    (localInput : Option I)
    (adv : ℕ → Except GGRSError (List (GGRSRequest I S)))
    (stepFn : World I S → World I S) (st : StepState I S)
    (hE : events = E ++ [GGRSEvent.desyncDetected f lc rc a]) :
    (∀ e ∈ events, (∀ p, e ≠ GGRSEvent.disconnected p) →
      ∃ l, eventLog e = some l ∧ l ∈ (drainEvents events).2) ∧
    LogEntry.desync f lc rc a ∈ (drainEvents events).2 ∧
    (runnerStep r frameStart localInput events adv stepFn st).state
      = (runnerStep r frameStart localInput E adv stepFn st).state ∧
    (runnerStep r frameStart localInput events adv stepFn st).trace
      = (runnerStep r frameStart localInput E adv stepFn st).trace ∧
    (runnerStep r frameStart localInput events adv stepFn st).runner
      = (runnerStep r frameStart localInput E adv stepFn st).runner := by
  subst hE
  have hskip : (drainEvents (E ++ [GGRSEvent.desyncDetected f lc rc a])).1
      = (drainEvents E).1 := by
    rw [drainEvents_eq, drainEvents_eq]
    show (E ++ [GGRSEvent.desyncDetected f lc rc a]).foldl eventSkip 0
      = E.foldl eventSkip 0
    rw [List.foldl_append]
    rfl
  refine ⟨?_, ?_, ?_, ?_, ?_⟩
  · intro e he hne
    have hsome : ∃ l, eventLog e = some l := by
      cases e with
      | synchronizing p t c => exact ⟨_, rfl⟩
      | synchronized p => exact ⟨_, rfl⟩
      | disconnected p => exact absurd rfl (hne p)
      | networkInterrupted p d => exact ⟨_, rfl⟩
      | networkResumed p => exact ⟨_, rfl⟩
      | waitRecommendation k => exact ⟨_, rfl⟩
      | desyncDetected g l1 l2 p => exact ⟨_, rfl⟩
    obtain ⟨l, hl⟩ := hsome
    refine ⟨l, hl, ?_⟩
    rw [drainEvents_eq]
    exact List.mem_filterMap.mpr ⟨e, he, hl⟩
  · rw [drainEvents_eq]
    exact List.mem_filterMap.mpr
      ⟨GGRSEvent.desyncDetected f lc rc a, by simp, rfl⟩
  · simp only [runnerStep]
    rw [hskip]
  · simp only [runnerStep]
    rw [hskip]
  · simp only [runnerStep]
    rw [hskip]

/-- Claim C8: AdvanceFrame application. Handling requests increments the
input collector's advance-frame bookkeeping and runs the simulation stages
exactly once per `AdvanceFrame` request (so replayed frames during
rollback count too); the `AdvanceFrame` handler advances the collector
once, advances the simulation clock by exactly one fixed-tick duration,
applies every participant's `(input, status)` pair into the input-facing
controls, then executes the single-step function once; and over a whole
`step` call the collector advances once per `AdvanceFrame` request
handled, not once per host call. -/
theorem advance_frame_application {I S : Type} [Inhabited S] (stepDur : ℚ)
    (stepFn : World I S → World I S) :
    (∀ (st : StepState I S) (rs : List (GGRSRequest I S)),
      (processRequests stepDur stepFn st rs).collectorFrames
        = st.collectorFrames + countAdvance rs ∧
      (processRequests stepDur stepFn st rs).stagesRuns
        = st.stagesRuns + countAdvance rs) ∧
    (∀ (st : StepState I S) (inputs : List (I × NetworkInputStatus)),
      processRequest stepDur stepFn st (GGRSRequest.advanceFrame inputs)
        = { st with
            world := stepFn (applyTick stepDur st.world inputs)
            collectorFrames := st.collectorFrames + 1
            stagesRuns := st.stagesRuns + 1 }) ∧
    (∀ (w : World I S) (inputs : List (I × NetworkInputStatus)),
      (applyTick stepDur w inputs).time = w.time + stepDur ∧
      (applyTick stepDur w inputs).sim = w.sim ∧
      ∀ i, i < inputs.length → i < w.controls.length →
        (applyTick stepDur w inputs).controls[i]? = inputs[i]?) ∧
    (∀ (r : GgrsSessionRunner I) (frameStart : ℚ) (localInput : Option I)
        (events : List GGRSEvent)
        (adv : ℕ → Except GGRSError (List (GGRSRequest I S)))
        (st : StepState I S),
      (runnerStep r frameStart localInput events adv stepFn st).state.collectorFrames
        = st.collectorFrames
          + traceAdvCount (runnerStep r frameStart localInput events adv stepFn st).trace ∧
      (runnerStep r frameStart localInput events adv stepFn st).state.stagesRuns
        = st.stagesRuns
          + traceAdvCount (runnerStep r frameStart localInput events adv stepFn st).trace) := by
  refine ⟨?_, ?_, ?_, ?_⟩
  · intro st rs
    exact ⟨processRequests_collectorFrames stepDur stepFn rs st,
      processRequests_stagesRuns stepDur stepFn rs st⟩
  · intro st inputs
    rfl
  · intro w inputs
    refine ⟨rfl, rfl, ?_⟩
    intro i hi hc
    exact applyNetworkInputs_getElem? w.controls inputs i hi hc
  · intro r frameStart localInput events adv st
    simp only [runnerStep, runTicks]
    exact ⟨tickLoop_collectorFrames _ _ _ _ _ _ _ _ _ _,
      tickLoop_stagesRuns _ _ _ _ _ _ _ _ _ _⟩

/-! ### Witnesses -/

/-- Witness for C1 at a concrete input: one mispredicted frame with input
`5` (true input `7`), snapshot at frame `0`, no further speculation. -/
theorem rollback_correctness_witness :
    ([(5, NetworkInputStatus.predicted)] : List (ℕ × NetworkInputStatus))
        ≠ [(7, NetworkInputStatus.confirmed)] ∧
    (processRequests (I := ℕ) (S := ℕ) 1 id
      ⟨⟨0, [(0, NetworkInputStatus.confirmed)], 0⟩, [], 0, 0⟩
      (GGRSRequest.saveGameState 0
        :: GGRSRequest.advanceFrame [(5, NetworkInputStatus.predicted)]
        :: ([] : List (GGRSRequest ℕ ℕ))
        ++ GGRSRequest.loadGameState 0
          :: ([[(7, NetworkInputStatus.confirmed)]].map GGRSRequest.advanceFrame))).world
      = (processRequests (I := ℕ) (S := ℕ) 1 id
          ⟨⟨0, [(0, NetworkInputStatus.confirmed)], 0⟩, [], 0, 0⟩
          (GGRSRequest.saveGameState 0
            :: ([[(7, NetworkInputStatus.confirmed)]].map GGRSRequest.advanceFrame))).world :=
  ⟨by decide,
    rollback_correctness 1 id ⟨0, [(0, NetworkInputStatus.confirmed)], 0⟩ [] 0 0 0
      [(5, NetworkInputStatus.predicted)] [(7, NetworkInputStatus.confirmed)] [] []
      (by decide) (by decide)⟩

/-- Witness for C2 at a concrete input: a 2-player session at frame `0`
with all inputs known advances, emitting `AdvanceFrame` for exactly frame
`0` and moving its counter to `1`. -/
theorem advance_frame_ordinals_witness :
    (⟨2, 10, 1, [[0, 1]]⟩ : PeerSession ℕ).currentFrame
      = (⟨2, 10, 0, []⟩ : PeerSession ℕ).currentFrame + 1 ∧
    ∃ F, F ≤ (⟨2, 10, 0, []⟩ : PeerSession ℕ).currentFrame ∧
      advFrames [SessionRequest.save 0,
        SessionRequest.advance 0
          [(0, NetworkInputStatus.confirmed), (1, NetworkInputStatus.confirmed)]]
        = List.range' F ((⟨2, 10, 0, []⟩ : PeerSession ℕ).currentFrame + 1 - F) :=
  advance_frame_ordinals ⟨2, 10, 0, []⟩ ⟨2, 10, 1, [[0, 1]]⟩
    (fun p _ => some p) _ rfl

/-- Witness for C3 at the spec's Scenario A: network rate 54 (host rate 60)
and a single call with 2 seconds elapsed attempts `⌊2 * 54⌋₊ = 108` ticks. -/
theorem accumulator_pacing_witness :
    (runnerStep (⟨0, [true], 0, 0, some 0, 54⟩ : GgrsSessionRunner ℕ) ((0 : ℚ) + 2)
        none [] (fun _ => Except.error GGRSError.notSynchronized)
        (id : World ℕ ℕ → World ℕ ℕ) ⟨⟨0, [], 0⟩, [], 0, 0⟩).trace.length
      = ⌊(2 : ℚ) * (54 : ℚ)⌋₊ ∧
    ⌊(2 : ℚ) * (54 : ℚ)⌋₊ = 108 := by
  constructor
  · exact accumulator_pacing _ 0 2 none [] _ id _ rfl rfl (by norm_num) (by norm_num)
  · norm_num

/-- Witness for C4 at host simulation rate 60. -/
theorem network_rate_derivation_witness :
    ((networkFpsOf 60 : ℤ) = round ((60 : ℚ) * NETWORK_FRAME_RATE_FACTOR)) ∧
    (∀ (flags : List Bool) (pc : ℕ) (r : GgrsSessionRunner ℕ),
      GgrsSessionRunner.new 60 flags pc = Except.ok r →
      r.networkFps = (networkFpsOf 60 : ℚ) ∧
      stepDuration r.networkFps = 1 / (networkFpsOf 60 : ℚ)) :=
  network_rate_derivation 60 (by norm_num)
    (by norm_num [NETWORK_FRAME_RATE_FACTOR, USIZE_MAX])

/-- Witness for C5 at a concrete input: a `WaitRecommendation(2)` event. -/
theorem skip_semantics_witness :
    (∀ rec ∈ (runnerStep (⟨0, [true], 0, 0, some 0, 54⟩ : GgrsSessionRunner ℕ) 1
        (some 7) [GGRSEvent.waitRecommendation 2]
        (fun _ => Except.ok ([] : List (GGRSRequest ℕ ℕ)))
        (id : World ℕ ℕ → World ℕ ℕ) ⟨⟨0, [], 0⟩, [], 0, 0⟩).trace,
        rec.submittedPlayer = 0 ∧ rec.submittedInput = 7) ∧
    (runnerStep (⟨0, [true], 0, 0, some 0, 54⟩ : GgrsSessionRunner ℕ) 1
        (some 7) [GGRSEvent.waitRecommendation 2]
        (fun _ => Except.ok ([] : List (GGRSRequest ℕ ℕ)))
        (id : World ℕ ℕ → World ℕ ℕ) ⟨⟨0, [], 0⟩, [], 0, 0⟩).trace.take 2
      = List.replicate
          (min 2 (runnerStep (⟨0, [true], 0, 0, some 0, 54⟩ : GgrsSessionRunner ℕ) 1
            (some 7) [GGRSEvent.waitRecommendation 2]
            (fun _ => Except.ok ([] : List (GGRSRequest ℕ ℕ)))
            (id : World ℕ ℕ → World ℕ ℕ) ⟨⟨0, [], 0⟩, [], 0, 0⟩).trace.length)
          ⟨0, 7, TickOutcome.skipped⟩ ∧
    (∀ rec ∈ (runnerStep (⟨0, [true], 0, 0, some 0, 54⟩ : GgrsSessionRunner ℕ) 1
        (some 7) [GGRSEvent.waitRecommendation 2]
        (fun _ => Except.ok ([] : List (GGRSRequest ℕ ℕ)))
        (id : World ℕ ℕ → World ℕ ℕ) ⟨⟨0, [], 0⟩, [], 0, 0⟩).trace.drop 2,
        rec.outcome ≠ TickOutcome.skipped) ∧
    (runnerStep (⟨0, [true], 0, 0, some 0, 54⟩ : GgrsSessionRunner ℕ) 1
        (some 7) [GGRSEvent.waitRecommendation 2]
        (fun _ => Except.ok ([] : List (GGRSRequest ℕ ℕ)))
        (id : World ℕ ℕ → World ℕ ℕ) ⟨⟨0, [], 0⟩, [], 0, 0⟩).finalSkipFrames
      = 2 - (runnerStep (⟨0, [true], 0, 0, some 0, 54⟩ : GgrsSessionRunner ℕ) 1
        (some 7) [GGRSEvent.waitRecommendation 2]
        (fun _ => Except.ok ([] : List (GGRSRequest ℕ ℕ)))
        (id : World ℕ ℕ → World ℕ ℕ) ⟨⟨0, [], 0⟩, [], 0, 0⟩).trace.length :=
  skip_semantics ⟨0, [true], 0, 0, some 0, 54⟩ 1 (some 7)
    [GGRSEvent.waitRecommendation 2] (fun _ => Except.ok []) id
    ⟨⟨0, [], 0⟩, [], 0, 0⟩ 2 (by decide)

/-- Witness for the amended C6 at a concrete input: every `advance_frame`
call yields `NotSynchronized`. -/
theorem tick_error_handling_witness :
    (runTicks (I := ℕ) (S := ℕ) 1 (fun _ => Except.error GGRSError.notSynchronized)
        id 0 0 2 0 ⟨⟨0, [], 0⟩, [], 0, 0⟩).state = ⟨⟨0, [], 0⟩, [], 0, 0⟩ ∧
    (runTicks (I := ℕ) (S := ℕ) 1 (fun _ => Except.error GGRSError.notSynchronized)
        id 0 0 2 0 ⟨⟨0, [], 0⟩, [], 0, 0⟩).trace.length = ⌊(2 : ℚ) / 1⌋₊ ∧
    (runTicks (I := ℕ) (S := ℕ) 1 (fun _ => Except.error GGRSError.notSynchronized)
        id 0 0 2 0 ⟨⟨0, [], 0⟩, [], 0, 0⟩).accumulator
      = 2 - (⌊(2 : ℚ) / 1⌋₊ : ℚ) * 1 ∧
    (∀ rec ∈ (runTicks (I := ℕ) (S := ℕ) 1 (fun _ => Except.error GGRSError.notSynchronized)
        id 0 0 2 0 ⟨⟨0, [], 0⟩, [], 0, 0⟩).trace,
      rec.outcome = TickOutcome.skipped ∨ ∃ e, rec.outcome = TickOutcome.errored e) :=
  tick_error_handling 1 2 (fun _ => Except.error GGRSError.notSynchronized)
    (fun _ => GGRSError.notSynchronized) id 0 0 0 ⟨⟨0, [], 0⟩, [], 0, 0⟩
    (fun _ => rfl) (by norm_num)

/-- Witness for the amended C7 at the spec's Scenario D: a `DesyncDetected`
event for frame 42 with differing checksums, preceded by a `Disconnected`
event. -/
theorem event_reporting_witness :
    (∀ e ∈ [GGRSEvent.disconnected 1, GGRSEvent.desyncDetected 42 7 9 1],
      (∀ p, e ≠ GGRSEvent.disconnected p) →
      ∃ l, eventLog e = some l ∧
        l ∈ (drainEvents [GGRSEvent.disconnected 1,
          GGRSEvent.desyncDetected 42 7 9 1]).2) ∧
    LogEntry.desync 42 7 9 1
      ∈ (drainEvents [GGRSEvent.disconnected 1, GGRSEvent.desyncDetected 42 7 9 1]).2 ∧
    (runnerStep (⟨0, [true], 0, 0, some 0, 54⟩ : GgrsSessionRunner ℕ) 1 (some 7)
        [GGRSEvent.disconnected 1, GGRSEvent.desyncDetected 42 7 9 1]
        (fun _ => Except.ok ([] : List (GGRSRequest ℕ ℕ)))
        (id : World ℕ ℕ → World ℕ ℕ) ⟨⟨0, [], 0⟩, [], 0, 0⟩).state
      = (runnerStep (⟨0, [true], 0, 0, some 0, 54⟩ : GgrsSessionRunner ℕ) 1 (some 7)
        [GGRSEvent.disconnected 1]
        (fun _ => Except.ok ([] : List (GGRSRequest ℕ ℕ)))
        (id : World ℕ ℕ → World ℕ ℕ) ⟨⟨0, [], 0⟩, [], 0, 0⟩).state ∧
    (runnerStep (⟨0, [true], 0, 0, some 0, 54⟩ : GgrsSessionRunner ℕ) 1 (some 7)
        [GGRSEvent.disconnected 1, GGRSEvent.desyncDetected 42 7 9 1]
        (fun _ => Except.ok ([] : List (GGRSRequest ℕ ℕ)))
        (id : World ℕ ℕ → World ℕ ℕ) ⟨⟨0, [], 0⟩, [], 0, 0⟩).trace
      = (runnerStep (⟨0, [true], 0, 0, some 0, 54⟩ : GgrsSessionRunner ℕ) 1 (some 7)
        [GGRSEvent.disconnected 1]
        (fun _ => Except.ok ([] : List (GGRSRequest ℕ ℕ)))
        (id : World ℕ ℕ → World ℕ ℕ) ⟨⟨0, [], 0⟩, [], 0, 0⟩).trace ∧
    (runnerStep (⟨0, [true], 0, 0, some 0, 54⟩ : GgrsSessionRunner ℕ) 1 (some 7)
        [GGRSEvent.disconnected 1, GGRSEvent.desyncDetected 42 7 9 1]
        (fun _ => Except.ok ([] : List (GGRSRequest ℕ ℕ)))
        (id : World ℕ ℕ → World ℕ ℕ) ⟨⟨0, [], 0⟩, [], 0, 0⟩).runner
      = (runnerStep (⟨0, [true], 0, 0, some 0, 54⟩ : GgrsSessionRunner ℕ) 1 (some 7)
        [GGRSEvent.disconnected 1]
        (fun _ => Except.ok ([] : List (GGRSRequest ℕ ℕ)))
        (id : World ℕ ℕ → World ℕ ℕ) ⟨⟨0, [], 0⟩, [], 0, 0⟩).runner :=
  event_reporting [GGRSEvent.disconnected 1, GGRSEvent.desyncDetected 42 7 9 1]
    [GGRSEvent.disconnected 1] 42 7 9 1 ⟨0, [true], 0, 0, some 0, 54⟩ 1 (some 7)
    (fun _ => Except.ok []) id ⟨⟨0, [], 0⟩, [], 0, 0⟩ rfl

/-- Witness for C8 at a concrete tick duration and step function. -/
theorem advance_frame_application_witness :
    (∀ (st : StepState ℕ ℕ) (rs : List (GGRSRequest ℕ ℕ)),
      (processRequests 1 id st rs).collectorFrames
        = st.collectorFrames + countAdvance rs ∧
      (processRequests 1 id st rs).stagesRuns
        = st.stagesRuns + countAdvance rs) ∧
    (∀ (st : StepState ℕ ℕ) (inputs : List (ℕ × NetworkInputStatus)),
      processRequest 1 id st (GGRSRequest.advanceFrame inputs)
        = { st with
            world := id (applyTick 1 st.world inputs)
            collectorFrames := st.collectorFrames + 1
            stagesRuns := st.stagesRuns + 1 }) ∧
    (∀ (w : World ℕ ℕ) (inputs : List (ℕ × NetworkInputStatus)),
      (applyTick 1 w inputs).time = w.time + 1 ∧
      (applyTick 1 w inputs).sim = w.sim ∧
      ∀ i, i < inputs.length → i < w.controls.length →
        (applyTick 1 w inputs).controls[i]? = inputs[i]?) ∧
    (∀ (r : GgrsSessionRunner ℕ) (frameStart : ℚ) (localInput : Option ℕ)
        (events : List GGRSEvent)
        (adv : ℕ → Except GGRSError (List (GGRSRequest ℕ ℕ)))
        (st : StepState ℕ ℕ),
      (runnerStep r frameStart localInput events adv id st).state.collectorFrames
        = st.collectorFrames
          + traceAdvCount (runnerStep r frameStart localInput events adv id st).trace ∧
      (runnerStep r frameStart localInput events adv id st).state.stagesRuns
        = st.stagesRuns
          + traceAdvCount (runnerStep r frameStart localInput events adv id st).trace) :=
  advance_frame_application 1 id

/-- Witness for C9 at the spec's Scenario B: four participants, none
local. -/
theorem construction_requires_local_player_witness :
    (GgrsSessionRunner.new (I := ℕ) 60 [false, false, false, false] 4).isOk = false :=
  (construction_requires_local_player 60 [false, false, false, false] 4).1 (by decide)

/-- Witness for C10 at a concrete input: an empty snapshot store. -/
theorem load_missing_snapshot_defaults_witness :
    (processRequest (I := ℕ) (S := ℕ) 1 id ⟨⟨1, [], 5⟩, [], 0, 0⟩
        (GGRSRequest.loadGameState 3)).world = ⟨0, [], 0⟩ :=
  load_missing_snapshot_defaults 1 id ⟨⟨1, [], 5⟩, [], 0, 0⟩ 3 rfl

end Bones
